/-
Verification of a minimal in-memory movies CRUD HTTP service.

The program keeps a `Mutex<HashMap<Uuid, Movie>>` as its sole state and
exposes five actix-web handlers: `get_movies`, `get_movie_by_id`,
`create_movie`, `update_movie_by_id`, `delete_movie_by_id`.

Embedding choices:
- `Uuid` is modelled as `Nat`; the random generator `Uuid::new_v4()` is
  modelled nondeterministically, its outputs appearing as explicit
  parameters (of handlers and of `Op.create`) and as the four parameters
  of the seed store built in `main`.
- The `HashMap` is modelled as an association list with first-match
  lookup, replace-first insert and erase-first removal; the well-formedness
  predicate `Store.WF` (no duplicate keys) is the `HashMap` invariant.
- `HttpResponse` is modelled as a status code plus a body.
- `.lock().unwrap()` and the `.unwrap()` on line 73 are modelled with
  `Option`: `none` stands for a panic (process abort, no HTTP response).
  The lock result is an `Except Unit Store`, `Except.error` standing for a
  poisoned mutex.
-/
import Mathlib

set_option autoImplicit false

/-- `struct Director { firstname, lastname }`. -/
structure Director where
  firstname : String
  lastname : String
deriving DecidableEq, Repr

/-- `struct Movie { id, isbn, title, director }`; `Uuid` modelled as `Nat`. -/
structure Movie where
  id : Nat
  isbn : String
  title : String
  director : Director
deriving DecidableEq, Repr

/-- The `HashMap<Uuid, Movie>` modelled as an association list. -/
abbrev Store := List (Nat × Movie)

/-- `HashMap::get`: first entry with the given key. -/
def Store.get (s : Store) (k : Nat) : Option Movie :=
  match s with
  | [] => none
  | (k', m) :: rest => if k = k' then some m else Store.get rest k

/-- `HashMap::insert`: replace the entry with the given key, else add one. -/
def Store.insert (s : Store) (k : Nat) (m : Movie) : Store :=
  match s with
  | [] => [(k, m)]
  | (k', m') :: rest =>
      if k = k' then (k, m) :: rest else (k', m') :: Store.insert rest k m

/-- `HashMap::remove` (the removal part): drop the entry with the given key. -/
def Store.erase (s : Store) (k : Nat) : Store :=
  match s with
  | [] => []
  | (k', m') :: rest => if k = k' then rest else (k', m') :: Store.erase rest k

/-- `HashMap::values`: all stored movies. -/
def Store.values (s : Store) : List Movie :=
  s.map Prod.snd

/-- The keys of the map. -/
def Store.keys (s : Store) : List Nat :=
  s.map Prod.fst

/-- `HashMap` well-formedness: no duplicate keys. -/
def Store.WF (s : Store) : Prop :=
  (Store.keys s).Nodup

instance (s : Store) : Decidable (Store.WF s) := by
  unfold Store.WF
  infer_instance

/-- An HTTP response body: empty, one movie, or a list of movies. -/
inductive Body where
  | empty
  | movie (m : Movie)
  | movies (ms : List Movie)
deriving DecidableEq, Repr

/-- An HTTP response: status code and body. -/
structure Response where
  status : Nat
  body : Body
deriving DecidableEq, Repr

/-- Handler `get_movies` (GET /movies): 200 with all stored movies. -/
def get_movies (data : Store) : Response :=
  Response.mk 200 (Body.movies (Store.values data))

/-- Handler `get_movie_by_id` (GET /movies/\x7bid\x7d): 200 with the movie
if present, else 404 empty. -/
def get_movie_by_id (data : Store) (id : Nat) : Response :=
  match Store.get data id with
  | some movie => Response.mk 200 (Body.movie movie)
  | none => Response.mk 404 Body.empty

/-- Handler `create_movie` (POST /movies). `genId` is the `Uuid::new_v4()`
output; the stored movie takes the payload's isbn, title and director and
the generated id. The response body re-reads the map
(`movies.get(&id).unwrap()`); `none` in the second component models that
unwrap panicking. -/
def create_movie (data : Store) (genId : Nat) (payload : Movie) : Store × Option Response :=
  let movie : Movie := Movie.mk genId payload.isbn payload.title payload.director
  let movies := Store.insert data genId movie
  (movies, (Store.get movies genId).map (fun m => Response.mk 201 (Body.movie m)))

/-- Handler `update_movie_by_id` (PUT /movies/\x7bid\x7d): if the id is
present, overwrite isbn, title, director in place (the stored record keeps
its own `id` field) and answer 200 with the updated record; else 404. -/
def update_movie_by_id (data : Store) (id : Nat) (payload : Movie) : Store × Response :=
  match Store.get data id with
  | some m =>
      let m2 : Movie := Movie.mk m.id payload.isbn payload.title payload.director
      (Store.insert data id m2, Response.mk 200 (Body.movie m2))
  | none => (data, Response.mk 404 Body.empty)

/-- Handler `delete_movie_by_id` (DELETE /movies/\x7bid\x7d): remove the
entry if present and answer 204 empty, else 404 empty. -/
def delete_movie_by_id (data : Store) (id : Nat) : Store × Response :=
  match Store.get data id with
  | some _ => (Store.erase data id, Response.mk 204 Body.empty)
  | none => (data, Response.mk 404 Body.empty)

/-- One client-visible operation; `Op.create` carries the generator output
used for that request. -/
inductive Op where
  | list
  | get (id : Nat)
  | create (genId : Nat) (payload : Movie)
  | update (id : Nat) (payload : Movie)
  | delete (id : Nat)
deriving DecidableEq, Repr

/-- Dispatch one operation to its handler. `none` as response models a
panic (only possible, a priori, for `create_movie`). -/
def applyOp (s : Store) (op : Op) : Store × Option Response :=
  match op with
  | Op.list => (s, some (get_movies s))
  | Op.get id => (s, some (get_movie_by_id s id))
  | Op.create genId payload => create_movie s genId payload
  | Op.update id payload =>
      let r := update_movie_by_id s id payload
      (r.1, some r.2)
  | Op.delete id =>
      let r := delete_movie_by_id s id
      (r.1, some r.2)

/-- Run a sequence of operations, returning the final store. -/
def runOps (s : Store) : List Op → Store
  | [] => s
  | op :: rest => runOps (applyOp s op).1 rest

/-- The first seed movie built in `main` (its `id` field is one fresh uuid). -/
def seedMovie1 (i1 : Nat) : Movie :=
  Movie.mk i1 "978-3-16-148410-0" "The Lord of the Rings"
    (Director.mk "Peter" "Jackson")

/-- The second seed movie built in `main`. -/
def seedMovie2 (i2 : Nat) : Movie :=
  Movie.mk i2 "978-0-06-055812-8" "The Hitchhiker's Guide to the Galaxy"
    (Director.mk "Garth" "Jennings")

/-- The initial map built in `main`: each seed movie is inserted under a
fresh uuid (`k1`, `k2`) distinct from the fresh uuid stored in its `id`
field (`i1`, `i2`). -/
def seedStore (k1 i1 k2 i2 : Nat) : Store :=
  Store.insert (Store.insert [] k1 (seedMovie1 i1)) k2 (seedMovie2 i2)

/-- A handler body runs only after `data.lock().unwrap()`; on a poisoned
mutex the unwrap panics: no response is produced. -/
def get_movies_locked (lock : Except Unit Store) : Option Response :=
  match lock with
  | Except.ok s => some (get_movies s)
  | Except.error _ => none

/-- `get_movie_by_id` behind `data.lock().unwrap()`. -/
def get_movie_by_id_locked (lock : Except Unit Store) (id : Nat) : Option Response :=
  match lock with
  | Except.ok s => some (get_movie_by_id s id)
  | Except.error _ => none

/-- `create_movie` behind `data.lock().unwrap()`. -/
def create_movie_locked (lock : Except Unit Store) (genId : Nat) (payload : Movie) :
    Option (Store × Response) :=
  match lock with
  | Except.ok s =>
      match create_movie s genId payload with
      | (s2, some r) => some (s2, r)
      | (_, none) => none
  | Except.error _ => none

/-- `update_movie_by_id` behind `data.lock().unwrap()`. -/
def update_movie_by_id_locked (lock : Except Unit Store) (id : Nat) (payload : Movie) :
    Option (Store × Response) :=
  match lock with
  | Except.ok s => some (update_movie_by_id s id payload)
  | Except.error _ => none

/-- `delete_movie_by_id` behind `data.lock().unwrap()`. -/
def delete_movie_by_id_locked (lock : Except Unit Store) (id : Nat) :
    Option (Store × Response) :=
  match lock with
  | Except.ok s => some (delete_movie_by_id s id)
  | Except.error _ => none

/-! ### Store invariant: every key equals the id of the movie it maps to -/

/-- Each map entry's key equals the `id` field of the movie stored under it. -/
def StoreInv (s : Store) : Prop :=
  ∀ k m, Store.get s k = some m → m.id = k

/-! ### Concrete sample data for witnesses -/

/-- A sample movie whose id matches its key in `sEx`. -/
def mEx : Movie :=
  Movie.mk 1 "111" "A" (Director.mk "B" "C")

/-- A second sample movie. -/
def m2Ex : Movie :=
  Movie.mk 2 "222" "A2" (Director.mk "D" "E")

/-- A sample well-formed store. -/
def sEx : Store :=
  [(1, mEx), (2, m2Ex)]

/-- A sample request payload (its `id` field, 99, is to be discarded). -/
def pEx : Movie :=
  Movie.mk 99 "333" "P" (Director.mk "F" "G")

/-! ### Trace bookkeeping -/

/-- The movie `create_movie` builds from a generated id and a payload. -/
def mkMovie (genId : Nat) (payload : Movie) : Movie :=
  Movie.mk genId payload.isbn payload.title payload.director

/-- The generator outputs consumed by the create operations of a trace. -/
def createIds : List Op → List Nat
  | [] => []
  | Op.create genId _ :: rest => genId :: createIds rest
  | _ :: rest => createIds rest

/-- N: the number of create operations in a trace (each answers 201). -/
def numCreates (ops : List Op) : Nat :=
  (createIds ops).length

/-- M: the number of delete operations that succeed (answer 204) when the
trace runs from store `s`. -/
def numSuccessfulDeletes (s : Store) : List Op → Nat
  | [] => 0
  | op :: rest =>
      (match op with
       | Op.delete id =>
           match Store.get s id with
           | some _ => 1
           | none => 0
       | _ => 0) + numSuccessfulDeletes (applyOp s op).1 rest

/-- The identifiers carried in the bodies of the 201 responses returned by
the create operations of a trace run from store `s`. -/
def returnedCreateIds (s : Store) : List Op → List Nat
  | [] => []
  | op :: rest =>
      (match op with
       | Op.create _ _ =>
           match (applyOp s op).2 with
           | some r =>
               match r.body with
               | Body.movie m => [m.id]
               | _ => []
           | none => []
       | _ => []) ++ returnedCreateIds (applyOp s op).1 rest

/-- The store writes one operation performs: a create writes the freshly
built movie under the generated id; a successful update writes the
overwritten record under the path id; nothing else writes. -/
def opWrites (s : Store) (op : Op) : List (Nat × Movie) :=
  match op with
  | Op.create genId payload => [(genId, mkMovie genId payload)]
  | Op.update id payload =>
      match Store.get s id with
      | some m => [(id, Movie.mk m.id payload.isbn payload.title payload.director)]
      | none => []
  | _ => []

/-- The chronological log of all writes a trace performs from store `s`. -/
def writeLog (s : Store) : List Op → List (Nat × Movie)
  | [] => []
  | op :: rest => opWrites s op ++ writeLog (applyOp s op).1 rest

/-- The last value written to `id` by the trace, if any. -/
def lastWrite (s : Store) (ops : List Op) (id : Nat) : Option Movie :=
  Store.get (writeLog s ops).reverse id

/-! ### Basic association-list lemmas -/

theorem Store.get_insert_self (s : Store) (k : Nat) (m : Movie) :
    Store.get (Store.insert s k m) k = some m := by
  induction s with
  | nil => simp [Store.insert, Store.get]
  | cons hd tl ih =>
      obtain ⟨k', m'⟩ := hd
      by_cases h : k = k' <;> simp [Store.insert, Store.get, h, ih]

theorem Store.get_insert_ne (s : Store) (k j : Nat) (m : Movie) (hne : j ≠ k) :
    Store.get (Store.insert s k m) j = Store.get s j := by
  induction s with
  | nil => simp [Store.insert, Store.get, hne]
  | cons hd tl ih =>
      obtain ⟨k', m'⟩ := hd
      by_cases h : k = k'
      · subst h
        simp [Store.insert, Store.get, hne]
      · by_cases h2 : j = k' <;> simp [Store.insert, Store.get, h, h2, ih]

theorem Store.get_eq_none_iff (s : Store) (k : Nat) :
    Store.get s k = none ↔ k ∉ Store.keys s := by
  induction s with
  | nil => simp [Store.get, Store.keys]
  | cons hd tl ih =>
      obtain ⟨k', m'⟩ := hd
      by_cases h : k = k' <;> simp [Store.get, Store.keys, h, ih]

theorem Store.length_insert_absent (s : Store) (k : Nat) (m : Movie)
    (h : Store.get s k = none) :
    (Store.insert s k m).length = s.length + 1 := by
  induction s with
  | nil => simp [Store.insert]
  | cons hd tl ih =>
      obtain ⟨k', m'⟩ := hd
      by_cases hk : k = k'
      · simp [Store.get, hk] at h
      · simp [Store.get, hk] at h
        simp [Store.insert, hk, ih h]

theorem Store.length_insert_present (s : Store) (k : Nat) (m m0 : Movie)
    (h : Store.get s k = some m0) :
    (Store.insert s k m).length = s.length := by
  induction s with
  | nil => simp [Store.get] at h
  | cons hd tl ih =>
      obtain ⟨k', m'⟩ := hd
      by_cases hk : k = k'
      · simp [Store.insert, hk]
      · simp [Store.get, hk] at h
        simp [Store.insert, hk, ih h]

theorem Store.length_erase_present (s : Store) (k : Nat) (m0 : Movie)
    (h : Store.get s k = some m0) :
    (Store.erase s k).length + 1 = s.length := by
  induction s with
  | nil => simp [Store.get] at h
  | cons hd tl ih =>
      obtain ⟨k', m'⟩ := hd
      by_cases hk : k = k'
      · simp [Store.erase, hk]
      · simp [Store.get, hk] at h
        simp [Store.erase, hk, ih h]

theorem Store.get_erase_ne (s : Store) (k j : Nat) (hne : j ≠ k) :
    Store.get (Store.erase s k) j = Store.get s j := by
  induction s with
  | nil => simp [Store.erase]
  | cons hd tl ih =>
      obtain ⟨k', m'⟩ := hd
      by_cases hk : k = k'
      · subst hk
        simp [Store.erase, Store.get, hne]
      · by_cases hj : j = k' <;> simp [Store.erase, Store.get, hk, hj, ih]

theorem Store.get_erase_self (s : Store) (k : Nat) (hwf : Store.WF s) :
    Store.get (Store.erase s k) k = none := by
  induction s with
  | nil => simp [Store.erase, Store.get]
  | cons hd tl ih =>
      obtain ⟨k', m'⟩ := hd
      rw [Store.WF, Store.keys] at hwf
      simp only [List.map_cons, List.nodup_cons] at hwf
      by_cases hk : k = k'
      · subst hk
        simp only [Store.erase, if_pos rfl]
        exact (Store.get_eq_none_iff tl k).mpr hwf.1
      · simp only [Store.erase, if_neg hk, Store.get, if_neg hk]
        exact ih hwf.2

theorem Store.mem_keys_insert (s : Store) (k j : Nat) (m : Movie)
    (h : j ∈ Store.keys (Store.insert s k m)) : j = k ∨ j ∈ Store.keys s := by
  induction s with
  | nil =>
      simp [Store.insert, Store.keys] at h
      exact Or.inl h
  | cons hd tl ih =>
      obtain ⟨k', m'⟩ := hd
      by_cases hk : k = k'
      · subst hk
        simp [Store.insert, Store.keys] at h
        rcases h with h | h
        · exact Or.inl h
        · exact Or.inr (by simp [Store.keys, h])
      · simp [Store.insert, Store.keys, hk] at h
        rcases h with h | h
        · exact Or.inr (by simp [Store.keys, h])
        · rcases ih (by simpa [Store.keys] using h) with h2 | h2
          · exact Or.inl h2
          · exact Or.inr (by simp [Store.keys]; right; simpa [Store.keys] using h2)

theorem Store.WF_insert (s : Store) (k : Nat) (m : Movie) (hwf : Store.WF s) :
    Store.WF (Store.insert s k m) := by
  induction s with
  | nil => simp [Store.insert, Store.WF, Store.keys]
  | cons hd tl ih =>
      obtain ⟨k', m'⟩ := hd
      rw [Store.WF, Store.keys] at hwf
      simp only [List.map_cons, List.nodup_cons] at hwf
      by_cases hk : k = k'
      · subst hk
        rw [Store.insert, if_pos rfl, Store.WF, Store.keys]
        simp only [List.map_cons, List.nodup_cons]
        exact hwf
      · rw [Store.insert, if_neg hk, Store.WF, Store.keys]
        simp only [List.map_cons, List.nodup_cons]
        constructor
        · intro hmem
          rcases Store.mem_keys_insert tl k k' m (by simpa [Store.keys] using hmem) with h | h
          · exact hk (h.symm)
          · exact hwf.1 h
        · exact ih hwf.2

theorem Store.mem_keys_erase (s : Store) (k j : Nat)
    (h : j ∈ Store.keys (Store.erase s k)) : j ∈ Store.keys s := by
  induction s with
  | nil => simp [Store.erase, Store.keys] at h
  | cons hd tl ih =>
      obtain ⟨k', m'⟩ := hd
      by_cases hk : k = k'
      · subst hk
        simp only [Store.erase, if_pos rfl] at h
        simp [Store.keys]
        right
        simpa [Store.keys] using h
      · simp only [Store.erase, if_neg hk] at h
        simp only [Store.keys, List.map_cons, List.mem_cons] at h ⊢
        rcases h with h | h
        · exact Or.inl h
        · exact Or.inr (ih (by simpa [Store.keys] using h))

theorem Store.WF_erase (s : Store) (k : Nat) (hwf : Store.WF s) :
    Store.WF (Store.erase s k) := by
  induction s with
  | nil => simpa [Store.erase] using hwf
  | cons hd tl ih =>
      obtain ⟨k', m'⟩ := hd
      rw [Store.WF, Store.keys] at hwf
      simp only [List.map_cons, List.nodup_cons] at hwf
      by_cases hk : k = k'
      · subst hk
        simpa [Store.erase, Store.WF] using hwf.2
      · rw [Store.erase, if_neg hk, Store.WF, Store.keys]
        simp only [List.map_cons, List.nodup_cons]
        exact ⟨fun hmem => hwf.1 (Store.mem_keys_erase tl k k' hmem), ih hwf.2⟩

theorem Store.length_values (s : Store) :
    (Store.values s).length = s.length := by
  simp [Store.values]

/-! ### Claim theorems: single-operation handlers -/

/-- C1: for every create request, the handler stores a movie whose isbn,
title and director are the payload's and whose id is the generated one
(any id supplied in the payload is discarded), and returns HTTP 201 with
that stored movie as body. -/
theorem create_movie_stores_payload_and_returns_201 :
    ∀ (s : Store) (genId : Nat) (payload : Movie),
      (create_movie s genId payload).2 =
        some (Response.mk 201 (Body.movie (mkMovie genId payload))) ∧
      (create_movie s genId payload).1 = Store.insert s genId (mkMovie genId payload) ∧
      Store.get (create_movie s genId payload).1 genId = some (mkMovie genId payload) := by
  intro s genId payload
  refine ⟨?_, rfl, ?_⟩
  · simp [create_movie, mkMovie, Store.get_insert_self]
  · simp [create_movie, mkMovie, Store.get_insert_self]

/-- C5: a get on the identifier a create returned, immediately after the
create, answers 200 with a movie carrying that identifier and the
payload's isbn, title and director. -/
theorem get_after_create_returns_created_movie :
    ∀ (s : Store) (genId : Nat) (payload : Movie),
      get_movie_by_id (create_movie s genId payload).1 genId =
        Response.mk 200 (Body.movie (mkMovie genId payload)) := by
  intro s genId payload
  simp [create_movie, get_movie_by_id, mkMovie, Store.get_insert_self]

/-- C2: an update on a present id overwrites exactly isbn, title and
director, keeps the stored record's id (the payload's id is ignored),
answers 200 with the updated movie, and touches no other key. -/
theorem update_present_overwrites_fields_keeps_id :
    ∀ (s : Store) (id : Nat) (payload m : Movie),
      Store.get s id = some m →
      update_movie_by_id s id payload =
        (Store.insert s id (Movie.mk m.id payload.isbn payload.title payload.director),
         Response.mk 200 (Body.movie (Movie.mk m.id payload.isbn payload.title payload.director))) ∧
      Store.get (update_movie_by_id s id payload).1 id =
        some (Movie.mk m.id payload.isbn payload.title payload.director) ∧
      (∀ j, j ≠ id → Store.get (update_movie_by_id s id payload).1 j = Store.get s j) := by
  intro s id payload m h
  have h1 : update_movie_by_id s id payload =
      (Store.insert s id (Movie.mk m.id payload.isbn payload.title payload.director),
       Response.mk 200 (Body.movie (Movie.mk m.id payload.isbn payload.title payload.director))) := by
    simp [update_movie_by_id, h]
  refine ⟨h1, ?_, ?_⟩
  · rw [h1]
    exact Store.get_insert_self s id (Movie.mk m.id payload.isbn payload.title payload.director)
  · intro j hj
    rw [h1]
    exact Store.get_insert_ne s id j (Movie.mk m.id payload.isbn payload.title payload.director) hj

/-- Witness for C2 at a concrete store, id and payload. -/
theorem update_present_overwrites_fields_keeps_id_witness :
    Store.get sEx 1 = some mEx ∧
    Store.get (update_movie_by_id sEx 1 pEx).1 1 =
      some (Movie.mk mEx.id pEx.isbn pEx.title pEx.director) :=
  ⟨by decide, (update_present_overwrites_fields_keeps_id sEx 1 pEx mEx (by decide)).2.1⟩

/-- C7: an update on an absent id answers 404 with empty body and leaves
the store unchanged. -/
theorem update_absent_returns_404_and_store_unchanged :
    ∀ (s : Store) (id : Nat) (payload : Movie),
      Store.get s id = none →
      update_movie_by_id s id payload = (s, Response.mk 404 Body.empty) := by
  intro s id payload h
  simp [update_movie_by_id, h]

/-- Witness for C7 at a concrete store, id and payload. -/
theorem update_absent_returns_404_and_store_unchanged_witness :
    Store.get sEx 5 = none ∧
    update_movie_by_id sEx 5 pEx = (sEx, Response.mk 404 Body.empty) :=
  ⟨by decide, update_absent_returns_404_and_store_unchanged sEx 5 pEx (by decide)⟩

/-- C8: get-by-id answers 200 with the stored movie exactly when the id is
a key of the store, 404 with empty body exactly when it is absent, and
those are the only two possible responses. -/
theorem get_by_id_200_iff_present_404_iff_absent :
    ∀ (s : Store) (id : Nat),
      (∀ m, Store.get s id = some m ↔
          get_movie_by_id s id = Response.mk 200 (Body.movie m)) ∧
      (Store.get s id = none ↔ get_movie_by_id s id = Response.mk 404 Body.empty) ∧
      ((∃ m, get_movie_by_id s id = Response.mk 200 (Body.movie m)) ∨
        get_movie_by_id s id = Response.mk 404 Body.empty) := by
  intro s id
  cases h : Store.get s id with
  | none =>
      refine ⟨?_, ?_, Or.inr ?_⟩ <;> simp [get_movie_by_id, h]
  | some m0 =>
      refine ⟨?_, ?_, Or.inl ⟨m0, ?_⟩⟩ <;> simp [get_movie_by_id, h]

/-- Witness for C8 at a concrete store and id. -/
theorem get_by_id_200_iff_present_404_iff_absent_witness :
    Store.get sEx 1 = some mEx ∧
    get_movie_by_id sEx 1 = Response.mk 200 (Body.movie mEx) :=
  ⟨by decide, ((get_by_id_200_iff_present_404_iff_absent sEx 1).1 mEx).mp (by decide)⟩

/-- C6: delete on a present id removes exactly that record (subsequent get
on it answers none, all other keys are untouched) and answers 204 empty;
delete on an absent id answers 404 empty and leaves the store unchanged. -/
theorem delete_removes_exactly_target_or_404 :
    ∀ (s : Store) (id : Nat), Store.WF s →
      (∀ m, Store.get s id = some m →
          delete_movie_by_id s id = (Store.erase s id, Response.mk 204 Body.empty) ∧
          Store.get (delete_movie_by_id s id).1 id = none ∧
          (∀ j, j ≠ id → Store.get (delete_movie_by_id s id).1 j = Store.get s j)) ∧
      (Store.get s id = none →
          delete_movie_by_id s id = (s, Response.mk 404 Body.empty)) := by
  intro s id hwf
  constructor
  · intro m h
    have h1 : delete_movie_by_id s id = (Store.erase s id, Response.mk 204 Body.empty) := by
      simp [delete_movie_by_id, h]
    refine ⟨h1, ?_, ?_⟩
    · rw [h1]
      exact Store.get_erase_self s id hwf
    · intro j hj
      rw [h1]
      exact Store.get_erase_ne s id j hj
  · intro h
    simp [delete_movie_by_id, h]

/-- Witness for C6 at a concrete store and id. -/
theorem delete_removes_exactly_target_or_404_witness :
    Store.WF sEx ∧ Store.get sEx 1 = some mEx ∧
    Store.get (delete_movie_by_id sEx 1).1 1 = none :=
  ⟨by decide, by decide,
    ((delete_removes_exactly_target_or_404 sEx 1 (by decide)).1 mEx (by decide)).2.1⟩

/-! ### Claim theorems: lock failure and the key-equals-id invariant -/

/-- C9 counterexample: on a poisoned lock the list handler produces no
response at all (`data.lock().unwrap()` panics, modelled as `none`); in
particular it does not produce a 500-level response. -/
theorem lock_failure_no_500_counterexample :
    get_movies_locked (Except.error ()) = none ∧
    ¬ ∃ r : Response, get_movies_locked (Except.error ()) = some r ∧
        500 ≤ r.status ∧ r.status < 600 := by
  constructor
  · rfl
  · rintro ⟨r, hr, -, -⟩
    simp [get_movies_locked] at hr

/-- C9 amended: when lock acquisition fails, every one of the five
handlers panics (no HTTP response is produced at all) instead of
returning a 500-level response. -/
theorem lock_failure_panics_every_handler :
    ∀ (e : Unit) (id genId : Nat) (payload : Movie),
      get_movies_locked (Except.error e) = none ∧
      get_movie_by_id_locked (Except.error e) id = none ∧
      create_movie_locked (Except.error e) genId payload = none ∧
      update_movie_by_id_locked (Except.error e) id payload = none ∧
      delete_movie_by_id_locked (Except.error e) id = none := by
  intro e id genId payload
  exact ⟨rfl, rfl, rfl, rfl, rfl⟩

/-- C10: every handler preserves the invariant that each map key equals
the id field of the movie stored under it, yet the seed store built in
`main` violates it: each seed movie sits under one generated uuid while
its id field holds a different generated uuid. -/
theorem handlers_preserve_key_eq_id_seed_violates :
    (∀ (s : Store) (op : Op), Store.WF s → StoreInv s → StoreInv (applyOp s op).1) ∧
    (∀ k1 i1 k2 i2 : Nat, k1 ≠ k2 → k1 ≠ i1 → k2 ≠ i2 →
      Store.get (seedStore k1 i1 k2 i2) k1 = some (seedMovie1 i1) ∧
      Store.get (seedStore k1 i1 k2 i2) k2 = some (seedMovie2 i2) ∧
      ¬ StoreInv (seedStore k1 i1 k2 i2)) := by
  constructor
  · intro s op hwf hinv
    cases op with
    | list => exact hinv
    | get id => exact hinv
    | create genId payload =>
        intro k m hk
        simp only [applyOp, create_movie] at hk
        by_cases hkg : k = genId
        · subst hkg
          rw [Store.get_insert_self] at hk
          cases hk
          rfl
        · rw [Store.get_insert_ne _ _ _ _ hkg] at hk
          exact hinv k m hk
    | update id payload =>
        intro k m hk
        simp only [applyOp] at hk
        cases h : Store.get s id with
        | none =>
            have h1 : (update_movie_by_id s id payload).1 = s := by
              simp [update_movie_by_id, h]
            rw [h1] at hk
            exact hinv k m hk
        | some m0 =>
            have h1 : (update_movie_by_id s id payload).1 =
                Store.insert s id (Movie.mk m0.id payload.isbn payload.title payload.director) := by
              simp [update_movie_by_id, h]
            rw [h1] at hk
            by_cases hki : k = id
            · subst hki
              rw [Store.get_insert_self] at hk
              cases hk
              exact hinv k m0 h
            · rw [Store.get_insert_ne _ _ _ _ hki] at hk
              exact hinv k m hk
    | delete id =>
        intro k m hk
        simp only [applyOp] at hk
        cases h : Store.get s id with
        | none =>
            have h1 : (delete_movie_by_id s id).1 = s := by
              simp [delete_movie_by_id, h]
            rw [h1] at hk
            exact hinv k m hk
        | some m0 =>
            have h1 : (delete_movie_by_id s id).1 = Store.erase s id := by
              simp [delete_movie_by_id, h]
            rw [h1] at hk
            by_cases hki : k = id
            · subst hki
              rw [Store.get_erase_self s k hwf] at hk
              cases hk
            · rw [Store.get_erase_ne s id k hki] at hk
              exact hinv k m hk
  · intro k1 i1 k2 i2 h12 h1 h2
    have hg1 : Store.get (seedStore k1 i1 k2 i2) k1 = some (seedMovie1 i1) := by
      simp [seedStore, Store.insert, Store.get, Ne.symm h12]
    have hg2 : Store.get (seedStore k1 i1 k2 i2) k2 = some (seedMovie2 i2) := by
      simp [seedStore, Store.insert, Store.get, Ne.symm h12]
    refine ⟨hg1, hg2, ?_⟩
    intro hinv
    have := hinv k1 (seedMovie1 i1) hg1
    simp [seedMovie1] at this
    exact h1 this.symm

/-- Witness for C10: at concrete distinct generated uuids the seed store
violates the key-equals-id invariant. -/
theorem handlers_preserve_key_eq_id_seed_violates_witness :
    (1 : Nat) ≠ 3 ∧ (1 : Nat) ≠ 2 ∧ (3 : Nat) ≠ 4 ∧
    ¬ StoreInv (seedStore 1 2 3 4) :=
  ⟨by decide, by decide, by decide,
    (handlers_preserve_key_eq_id_seed_violates.2 1 2 3 4
      (by decide) (by decide) (by decide)).2.2⟩

/-! ### Claim theorems: identifiers returned by creates -/

/-- The id carried in each create's 201 response is exactly the generator
output consumed by that create. -/
theorem returnedCreateIds_eq_createIds (ops : List Op) :
    ∀ s : Store, returnedCreateIds s ops = createIds ops := by
  induction ops with
  | nil => intro s; rfl
  | cons op rest ih =>
      intro s
      cases op with
      | list => simp [returnedCreateIds, createIds, ih]
      | get id => simp [returnedCreateIds, createIds, ih]
      | create genId payload =>
          simp [returnedCreateIds, createIds, applyOp, create_movie,
            Store.get_insert_self, ih]
      | update id payload => simp [returnedCreateIds, createIds, ih]
      | delete id => simp [returnedCreateIds, createIds, ih]

/-- C4 counterexample: if the random generator happens to return the same
uuid twice (possible: reuse is not structurally prevented), two creates
return the same identifier. -/
theorem returned_create_ids_duplicate_counterexample :
    returnedCreateIds [] [Op.create 7 pEx, Op.create 7 pEx] = [7, 7] ∧
    ¬ (returnedCreateIds [] [Op.create 7 pEx, Op.create 7 pEx]).Nodup := by
  constructor
  · rfl
  · intro h
    rw [returnedCreateIds_eq_createIds] at h
    simp [createIds] at h

/-- C4 amended: whenever the generator outputs consumed by the creates of
a trace are pairwise distinct, the identifiers returned by those creates
are pairwise distinct. -/
theorem returned_create_ids_distinct_of_generator_distinct :
    ∀ (s : Store) (ops : List Op),
      (createIds ops).Nodup → (returnedCreateIds s ops).Nodup := by
  intro s ops h
  rw [returnedCreateIds_eq_createIds]
  exact h

/-- Witness for amended C4 on a concrete two-create trace. -/
theorem returned_create_ids_distinct_of_generator_distinct_witness :
    (createIds [Op.create 7 pEx, Op.create 8 pEx]).Nodup ∧
    (returnedCreateIds [] [Op.create 7 pEx, Op.create 8 pEx]).Nodup :=
  ⟨by decide,
    returned_create_ids_distinct_of_generator_distinct []
      [Op.create 7 pEx, Op.create 8 pEx] (by decide)⟩

/-! ### Claim theorems: traces of operations -/

/-- Every operation preserves HashMap well-formedness. -/
theorem applyOp_WF (s : Store) (op : Op) (hwf : Store.WF s) :
    Store.WF (applyOp s op).1 := by
  cases op with
  | list => exact hwf
  | get id => exact hwf
  | create genId payload =>
      simpa [applyOp, create_movie] using
        Store.WF_insert s genId (mkMovie genId payload) hwf
  | update id payload =>
      cases h : Store.get s id with
      | none => simpa [applyOp, update_movie_by_id, h] using hwf
      | some m0 =>
          simpa [applyOp, update_movie_by_id, h] using
            Store.WF_insert s id
              (Movie.mk m0.id payload.isbn payload.title payload.director) hwf
  | delete id =>
      cases h : Store.get s id with
      | none => simpa [applyOp, delete_movie_by_id, h] using hwf
      | some m0 =>
          simpa [applyOp, delete_movie_by_id, h] using Store.WF_erase s id hwf

/-- Lookup distributes over append: the left list is consulted first. -/
theorem Store.get_append (l1 l2 : Store) (k : Nat) :
    Store.get (l1 ++ l2) k =
      match Store.get l1 k with
      | some m => some m
      | none => Store.get l2 k := by
  induction l1 with
  | nil => simp [Store.get]
  | cons hd tl ih =>
      obtain ⟨k', m'⟩ := hd
      by_cases h : k = k' <;> simp [Store.get, h, ih]

/-- Counting invariant: running a trace whose create ids are pairwise
distinct and absent from the starting store leaves the store with one
record per create, minus one per successful delete. -/
theorem runOps_length (ops : List Op) :
    ∀ s : Store,
      (createIds ops).Nodup →
      (∀ i ∈ createIds ops, Store.get s i = none) →
      (runOps s ops).length + numSuccessfulDeletes s ops =
        s.length + numCreates ops := by
  induction ops with
  | nil =>
      intro s _ _
      simp [runOps, numSuccessfulDeletes, numCreates, createIds]
  | cons op rest ih =>
      intro s hnd hfresh
      cases op with
      | list =>
          have := ih s (by simpa [createIds] using hnd)
            (fun i hi => hfresh i (by simpa [createIds] using hi))
          simpa [runOps, applyOp, numSuccessfulDeletes, numCreates, createIds]
            using this
      | get id =>
          have := ih s (by simpa [createIds] using hnd)
            (fun i hi => hfresh i (by simpa [createIds] using hi))
          simpa [runOps, applyOp, numSuccessfulDeletes, numCreates, createIds]
            using this
      | create genId payload =>
          have hnd2 : genId ∉ createIds rest ∧ (createIds rest).Nodup := by
            simpa [createIds, List.nodup_cons] using hnd
          have hnd' : (createIds rest).Nodup := hnd2.2
          have hgnotin : genId ∉ createIds rest := hnd2.1
          have hgen : Store.get s genId = none :=
            hfresh genId (by simp [createIds])
          have hfresh' : ∀ i ∈ createIds rest,
              Store.get (Store.insert s genId (mkMovie genId payload)) i = none := by
            intro i hi
            have hne : i ≠ genId := fun h => hgnotin (h ▸ hi)
            rw [Store.get_insert_ne s genId i (mkMovie genId payload) hne]
            exact hfresh i (by simp [createIds, hi])
          have hrec := ih (Store.insert s genId (mkMovie genId payload)) hnd' hfresh'
          have hlen : (Store.insert s genId (mkMovie genId payload)).length =
              s.length + 1 :=
            Store.length_insert_absent s genId (mkMovie genId payload) hgen
          have hrun : runOps s (Op.create genId payload :: rest) =
              runOps (Store.insert s genId (mkMovie genId payload)) rest := by
            simp [runOps, applyOp, create_movie, mkMovie]
          have hdel : numSuccessfulDeletes s (Op.create genId payload :: rest) =
              numSuccessfulDeletes (Store.insert s genId (mkMovie genId payload)) rest := by
            simp [numSuccessfulDeletes, applyOp, create_movie, mkMovie]
          rw [hrun, hdel]
          have hN : numCreates (Op.create genId payload :: rest) =
              numCreates rest + 1 := by
            simp [numCreates, createIds]
          rw [hN]
          omega
      | update id payload =>
          have hnd' : (createIds rest).Nodup := by simpa [createIds] using hnd
          cases h : Store.get s id with
          | none =>
              have hfresh' : ∀ i ∈ createIds rest, Store.get s i = none :=
                fun i hi => hfresh i (by simpa [createIds] using hi)
              have := ih s hnd' hfresh'
              simpa [runOps, applyOp, update_movie_by_id, h,
                numSuccessfulDeletes, numCreates, createIds] using this
          | some m0 =>
              have hfresh' : ∀ i ∈ createIds rest,
                  Store.get (Store.insert s id
                    (Movie.mk m0.id payload.isbn payload.title payload.director)) i
                    = none := by
                intro i hi
                have hi0 : Store.get s i = none :=
                  hfresh i (by simpa [createIds] using hi)
                have hne : i ≠ id := by
                  intro hcon
                  rw [hcon, h] at hi0
                  cases hi0
                rw [Store.get_insert_ne s id i _ hne]
                exact hi0
              have hrec := ih (Store.insert s id
                (Movie.mk m0.id payload.isbn payload.title payload.director))
                hnd' hfresh'
              have hlen := Store.length_insert_present s id
                (Movie.mk m0.id payload.isbn payload.title payload.director) m0 h
              have hrun : runOps s (Op.update id payload :: rest) =
                  runOps (Store.insert s id
                    (Movie.mk m0.id payload.isbn payload.title payload.director)) rest := by
                simp [runOps, applyOp, update_movie_by_id, h]
              have hdel : numSuccessfulDeletes s (Op.update id payload :: rest) =
                  numSuccessfulDeletes (Store.insert s id
                    (Movie.mk m0.id payload.isbn payload.title payload.director)) rest := by
                simp [numSuccessfulDeletes, applyOp, update_movie_by_id, h]
              have hN : numCreates (Op.update id payload :: rest) = numCreates rest := by
                simp [numCreates, createIds]
              rw [hrun, hdel, hN]
              omega
      | delete id =>
          have hnd' : (createIds rest).Nodup := by simpa [createIds] using hnd
          cases h : Store.get s id with
          | none =>
              have hfresh' : ∀ i ∈ createIds rest, Store.get s i = none :=
                fun i hi => hfresh i (by simpa [createIds] using hi)
              have := ih s hnd' hfresh'
              simpa [runOps, applyOp, delete_movie_by_id, h,
                numSuccessfulDeletes, numCreates, createIds] using this
          | some m0 =>
              have hfresh' : ∀ i ∈ createIds rest,
                  Store.get (Store.erase s id) i = none := by
                intro i hi
                have hi0 : Store.get s i = none :=
                  hfresh i (by simpa [createIds] using hi)
                have hne : i ≠ id := by
                  intro hcon
                  rw [hcon, h] at hi0
                  cases hi0
                rw [Store.get_erase_ne s id i hne]
                exact hi0
              have hrec := ih (Store.erase s id) hnd' hfresh'
              have hlen := Store.length_erase_present s id m0 h
              have hrun : runOps s (Op.delete id :: rest) =
                  runOps (Store.erase s id) rest := by
                simp [runOps, applyOp, delete_movie_by_id, h]
              have hdel : numSuccessfulDeletes s (Op.delete id :: rest) =
                  1 + numSuccessfulDeletes (Store.erase s id) rest := by
                simp [numSuccessfulDeletes, applyOp, delete_movie_by_id, h]
              have hN : numCreates (Op.delete id :: rest) = numCreates rest := by
                simp [numCreates, createIds]
              rw [hrun, hdel, hN]
              omega

/-- The last write of a trace starting with `op`: either the tail wrote
the key last, or the head operation's own write is the last one. -/
theorem lastWrite_cons (s : Store) (op : Op) (rest : List Op) (id : Nat) :
    lastWrite s (op :: rest) id =
      match lastWrite (applyOp s op).1 rest id with
      | some w => some w
      | none => Store.get (opWrites s op).reverse id := by
  simp [lastWrite, writeLog, List.reverse_append, Store.get_append]

/-- Every record in the store after a trace (with distinct, unused create
ids) is the last value written to its key, or — if the trace never wrote
that key — the record the starting store already held there. -/
theorem runOps_lastWrite (ops : List Op) :
    ∀ s : Store, Store.WF s →
      (createIds ops).Nodup →
      (∀ i ∈ createIds ops, Store.get s i = none) →
      ∀ id m, Store.get (runOps s ops) id = some m →
        lastWrite s ops id = some m ∨
        (lastWrite s ops id = none ∧ Store.get s id = some m) := by
  induction ops with
  | nil =>
      intro s _ _ _ id m h
      right
      exact ⟨rfl, by simpa [runOps] using h⟩
  | cons op rest ih =>
      intro s hwf hnd hfresh id m h
      have hwf' : Store.WF (applyOp s op).1 := applyOp_WF s op hwf
      cases op with
      | list =>
          have hres := ih s hwf (by simpa [createIds] using hnd)
            (fun i hi => hfresh i (by simpa [createIds] using hi)) id m
            (by simpa [runOps, applyOp] using h)
          rw [lastWrite_cons]
          simp only [applyOp, opWrites]
          rcases hres with hW | ⟨hN, hG⟩
          · rw [hW]
            exact Or.inl rfl
          · rw [hN]
            exact Or.inr ⟨rfl, hG⟩
      | get gid =>
          have hres := ih s hwf (by simpa [createIds] using hnd)
            (fun i hi => hfresh i (by simpa [createIds] using hi)) id m
            (by simpa [runOps, applyOp] using h)
          rw [lastWrite_cons]
          simp only [applyOp, opWrites]
          rcases hres with hW | ⟨hN, hG⟩
          · rw [hW]
            exact Or.inl rfl
          · rw [hN]
            exact Or.inr ⟨rfl, hG⟩
      | create genId payload =>
          have happly : (applyOp s (Op.create genId payload)).1 =
              Store.insert s genId (mkMovie genId payload) := by
            simp [applyOp, create_movie, mkMovie]
          have hnd2 : genId ∉ createIds rest ∧ (createIds rest).Nodup := by
            simpa [createIds, List.nodup_cons] using hnd
          have hfresh' : ∀ i ∈ createIds rest,
              Store.get (Store.insert s genId (mkMovie genId payload)) i = none := by
            intro i hi
            have hne : i ≠ genId := fun hcon => hnd2.1 (hcon ▸ hi)
            rw [Store.get_insert_ne s genId i (mkMovie genId payload) hne]
            exact hfresh i (by simp [createIds, hi])
          have hres := ih (Store.insert s genId (mkMovie genId payload))
            (happly ▸ hwf') hnd2.2 hfresh' id m
            (by simpa [runOps, happly] using h)
          rw [lastWrite_cons, happly]
          rcases hres with hW | ⟨hN, hG⟩
          · rw [hW]
            exact Or.inl rfl
          · rw [hN]
            by_cases hid : id = genId
            · subst hid
              rw [Store.get_insert_self] at hG
              refine Or.inl ?_
              simp only [opWrites]
              simpa [Store.get] using hG
            · refine Or.inr ⟨?_, ?_⟩
              · simp [opWrites, Store.get, hid]
              · rw [Store.get_insert_ne s genId id (mkMovie genId payload) hid] at hG
                exact hG
      | update uid payload =>
          have hnd' : (createIds rest).Nodup := by simpa [createIds] using hnd
          cases hu : Store.get s uid with
          | none =>
              have happly : (applyOp s (Op.update uid payload)).1 = s := by
                simp [applyOp, update_movie_by_id, hu]
              have hres := ih s hwf hnd'
                (fun i hi => hfresh i (by simpa [createIds] using hi)) id m
                (by simpa [runOps, happly] using h)
              rw [lastWrite_cons, happly]
              rcases hres with hW | ⟨hN, hG⟩
              · rw [hW]
                exact Or.inl rfl
              · rw [hN]
                exact Or.inr ⟨by simp [opWrites, hu, Store.get], hG⟩
          | some m0 =>
              have happly : (applyOp s (Op.update uid payload)).1 =
                  Store.insert s uid
                    (Movie.mk m0.id payload.isbn payload.title payload.director) := by
                simp [applyOp, update_movie_by_id, hu]
              have hfresh' : ∀ i ∈ createIds rest,
                  Store.get (Store.insert s uid
                    (Movie.mk m0.id payload.isbn payload.title payload.director)) i
                    = none := by
                intro i hi
                have hi0 : Store.get s i = none :=
                  hfresh i (by simpa [createIds] using hi)
                have hne : i ≠ uid := by
                  intro hcon
                  rw [hcon, hu] at hi0
                  cases hi0
                rw [Store.get_insert_ne s uid i _ hne]
                exact hi0
              have hres := ih (Store.insert s uid
                  (Movie.mk m0.id payload.isbn payload.title payload.director))
                (happly ▸ hwf') hnd' hfresh' id m
                (by simpa [runOps, happly] using h)
              rw [lastWrite_cons, happly]
              rcases hres with hW | ⟨hN, hG⟩
              · rw [hW]
                exact Or.inl rfl
              · rw [hN]
                by_cases hid : id = uid
                · subst hid
                  rw [Store.get_insert_self] at hG
                  refine Or.inl ?_
                  simp only [opWrites, hu]
                  simpa [Store.get] using hG
                · refine Or.inr ⟨?_, ?_⟩
                  · simp [opWrites, hu, Store.get, hid]
                  · rw [Store.get_insert_ne s uid id _ hid] at hG
                    exact hG
      | delete did =>
          have hnd' : (createIds rest).Nodup := by simpa [createIds] using hnd
          cases hd : Store.get s did with
          | none =>
              have happly : (applyOp s (Op.delete did)).1 = s := by
                simp [applyOp, delete_movie_by_id, hd]
              have hres := ih s hwf hnd'
                (fun i hi => hfresh i (by simpa [createIds] using hi)) id m
                (by simpa [runOps, happly] using h)
              rw [lastWrite_cons, happly]
              rcases hres with hW | ⟨hN, hG⟩
              · rw [hW]
                exact Or.inl rfl
              · rw [hN]
                exact Or.inr ⟨by simp [opWrites, Store.get], hG⟩
          | some m0 =>
              have happly : (applyOp s (Op.delete did)).1 = Store.erase s did := by
                simp [applyOp, delete_movie_by_id, hd]
              have hfresh' : ∀ i ∈ createIds rest,
                  Store.get (Store.erase s did) i = none := by
                intro i hi
                have hi0 : Store.get s i = none :=
                  hfresh i (by simpa [createIds] using hi)
                have hne : i ≠ did := by
                  intro hcon
                  rw [hcon, hd] at hi0
                  cases hi0
                rw [Store.get_erase_ne s did i hne]
                exact hi0
              have hres := ih (Store.erase s did) (happly ▸ hwf') hnd' hfresh' id m
                (by simpa [runOps, happly] using h)
              rw [lastWrite_cons, happly]
              rcases hres with hW | ⟨hN, hG⟩
              · rw [hW]
                exact Or.inl rfl
              · rw [hN]
                by_cases hid : id = did
                · subst hid
                  rw [Store.get_erase_self s id hwf] at hG
                  cases hG
                · rw [Store.get_erase_ne s did id hid] at hG
                  exact Or.inr ⟨by simp [opWrites, Store.get], hG⟩

/-- C3 counterexample: on the empty trace (N = 0 creates, M = 0 deletes,
M ≤ N) the list handler still returns the 2 seed records, not N − M = 0. -/
theorem list_count_ignores_seed_counterexample :
    numCreates ([] : List Op) = 0 ∧
    numSuccessfulDeletes (seedStore 1 2 3 4) [] = 0 ∧
    (Store.values (runOps (seedStore 1 2 3 4) [])).length = 2 ∧
    (Store.values (runOps (seedStore 1 2 3 4) [])).length ≠
      numCreates ([] : List Op) - numSuccessfulDeletes (seedStore 1 2 3 4) [] := by
  refine ⟨rfl, rfl, by decide, by decide⟩

/-- C3 amended: starting from the two-record seed store, a trace whose
create ids are pairwise distinct and unused leaves the list handler
returning exactly 2 + N − M records (N creates, M successful deletes),
each record equal to the last value a create or update wrote to its key,
or to the seed record if the trace never wrote that key. -/
theorem list_count_and_last_writes_after_trace :
    ∀ (k1 i1 k2 i2 : Nat) (ops : List Op),
      k1 ≠ k2 →
      (createIds ops).Nodup →
      (∀ i ∈ createIds ops, Store.get (seedStore k1 i1 k2 i2) i = none) →
      get_movies (runOps (seedStore k1 i1 k2 i2) ops) =
        Response.mk 200 (Body.movies (Store.values (runOps (seedStore k1 i1 k2 i2) ops))) ∧
      (Store.values (runOps (seedStore k1 i1 k2 i2) ops)).length
          + numSuccessfulDeletes (seedStore k1 i1 k2 i2) ops
        = 2 + numCreates ops ∧
      (∀ id m, Store.get (runOps (seedStore k1 i1 k2 i2) ops) id = some m →
        lastWrite (seedStore k1 i1 k2 i2) ops id = some m ∨
        (lastWrite (seedStore k1 i1 k2 i2) ops id = none ∧
          Store.get (seedStore k1 i1 k2 i2) id = some m)) := by
  intro k1 i1 k2 i2 ops h12 hnd hfresh
  have hseed : seedStore k1 i1 k2 i2 = [(k1, seedMovie1 i1), (k2, seedMovie2 i2)] := by
    simp [seedStore, Store.insert, Ne.symm h12]
  have hwf : Store.WF (seedStore k1 i1 k2 i2) := by
    rw [hseed]
    simp [Store.WF, Store.keys, h12]
  refine ⟨rfl, ?_, runOps_lastWrite ops (seedStore k1 i1 k2 i2) hwf hnd hfresh⟩
  have hcount := runOps_length ops (seedStore k1 i1 k2 i2) hnd hfresh
  have hlen2 : (seedStore k1 i1 k2 i2).length = 2 := by
    rw [hseed]
    rfl
  rw [Store.length_values]
  omega

/-- Witness for amended C3 on a concrete seed store and trace with one
create and one successful delete. -/
theorem list_count_and_last_writes_after_trace_witness :
    (1 : Nat) ≠ 3 ∧
    (createIds [Op.create 10 pEx, Op.delete 1]).Nodup ∧
    (∀ i ∈ createIds [Op.create 10 pEx, Op.delete 1],
      Store.get (seedStore 1 2 3 4) i = none) ∧
    (Store.values (runOps (seedStore 1 2 3 4) [Op.create 10 pEx, Op.delete 1])).length
        + numSuccessfulDeletes (seedStore 1 2 3 4) [Op.create 10 pEx, Op.delete 1]
      = 2 + numCreates [Op.create 10 pEx, Op.delete 1] :=
  ⟨by decide, by decide, by decide,
    (list_count_and_last_writes_after_trace 1 2 3 4 [Op.create 10 pEx, Op.delete 1]
      (by decide) (by decide) (by decide)).2.1⟩
